import Mathlib

/-!
Verification of the Nylene consumption-sheet wizard.

The repository is a three-step data-entry wizard (chip identity form,
destination picker, summary page) backed by one localStorage JSON blob,
plus an Express endpoint POST /save that appends a row to an Excel sheet.

This file shallowly embeds the code:

* JSON values are modelled by the inductive `Json` (numbers as exact
  rationals; IEEE double rounding, overflow and underflow are not
  modelled — no claim here depends on them).
* The localStorage slot is `StorageCell`: the key can be absent, hold a
  string that is not valid JSON (constructor `corrupt`, on which
  JSON.parse throws and getStoredData catches), or hold valid JSON,
  represented by its parsed `Json` value.  Serialisation is abstracted:
  JSON.stringify followed by JSON.parse is the identity at this level.
* String operations used by the code (trim, split on whitespace, the
  character-class regexes, Number.parseFloat) are defined over the
  character list of the string, following the JavaScript semantics.
* The multi-page controller is a functional transition system
  `wizStep : WizState → WizEvent → WizState` whose events are the DOM
  events the code installs handlers for (navigation, chip-type click,
  the two form submits, the final save click, arrival of the save
  response, and firing of the delayed redirect timer).  Navigating away
  from a page unloads it, which aborts an in-flight fetch and discards
  pending timers; the `nav` transition therefore resets those parts of
  the session state.
-/

/-- A JSON value as produced by JSON.parse: null, booleans, numbers
(exact rationals here), strings, arrays and objects.  Objects keep their
fields in order; JSON.parse resolves duplicate keys by keeping the last,
so lookups take the last binding. -/
inductive Json where
  | null : Json
  | bool (b : Bool) : Json
  | num (q : ℚ) : Json
  | str (s : String) : Json
  | arr (xs : List Json) : Json
  | obj (fields : List (String × Json)) : Json

/-- JavaScript falsiness of a JSON value: null, false, 0 and the empty
string are falsy; arrays and objects are always truthy. -/
def jsonFalsy : Json → Bool
  | .null => true
  | .bool b => !b
  | .num q => decide (q = 0)
  | .str s => decide (s = "")
  | .arr _ => false
  | .obj _ => false

/-- Property access as in JavaScript: only objects have named fields;
the last binding of a key wins (matching both object literal evaluation
and JSON.parse duplicate-key resolution).  `none` is `undefined`. -/
def lookupLast : List (String × Json) → String → Option Json
  | [], _ => none
  | (k, v) :: rest, key =>
    match lookupLast rest key with
    | some r => some r
    | none => if k = key then some v else none

/-- `j.getField k` is the JavaScript expression `j?.[k]` (undefined on
non-objects). -/
def Json.getField : Json → String → Option Json
  | .obj fields, key => lookupLast fields key
  | _, _ => none

/-- `fieldTruthy j k` is the JavaScript truth test `!!j[k]` used by every
guard in the code: false when the field is absent or falsy. -/
def fieldTruthy (j : Json) (k : String) : Bool :=
  match j.getField k with
  | some v => !jsonFalsy v
  | none => false

/-- Enumerable own fields contributed by spreading a value into an
object literal, `{...v}`: an object contributes its fields; strings and
arrays contribute index-keyed entries; other primitives contribute
nothing. -/
def Json.spreadFields : Json → List (String × Json)
  | .obj fields => fields
  | .arr xs => xs.enum.map fun p => (toString p.1, p.2)
  | .str s => s.data.enum.map fun p => (toString p.1, Json.str (String.mk [p.2]))
  | _ => []

/-- Replace the value of key `k` in place when it exists (JavaScript
object literals keep the original key position), else append it. -/
def setKey (fields : List (String × Json)) (k : String) (v : Json) :
    List (String × Json) :=
  if fields.any fun p => p.1 = k then
    fields.map fun p => if p.1 = k then (k, v) else p
  else fields ++ [(k, v)]

/-- The object literal `{...j, k: v}`. -/
def Json.setField (j : Json) (k : String) (v : Json) : Json :=
  .obj (setKey j.spreadFields k v)

/-- The object literal `{...j, k1: v1, ..., kn: vn}` for the given
key-value list. -/
def Json.withFields (j : Json) (kvs : List (String × Json)) : Json :=
  kvs.foldl (fun acc p => acc.setField p.1 p.2) j

/-- The localStorage slot under the key "productTrackingForm".
`missing` is an absent key (getItem returns null), `corrupt` is a stored
string that is not valid JSON (JSON.parse throws), and `value j` is a
stored string that parses to the JSON value `j`. -/
inductive StorageCell where
  | missing : StorageCell
  | corrupt : StorageCell
  | value (j : Json) : StorageCell

/-- getStoredData from app.js lines 20-27: JSON.parse of the stored
string, with `|| {}` mapping every falsy parse result to an empty
object, and try/catch mapping a parse error to an empty object.  On a
missing key getItem yields null, JSON.parse(null) parses the string
"null" to null, and `null || {}` is `{}`.  The function is total: no
input makes it raise to the caller. -/
def getStoredData : StorageCell → Json
  | .missing => .obj []
  | .corrupt => .obj []
  | .value j => if jsonFalsy j then .obj [] else j

/-- setStoredData from app.js lines 29-32: JSON.stringify the record and
store it.  Stringify of a parsed JSON value followed by JSON.parse is
the identity at the `Json` level of this model, so the stored cell just
holds the value. -/
def setStoredData (j : Json) : StorageCell :=
  .value j

/-- clearStoredData from app.js lines 34-37: remove the key. -/
def clearStoredData : StorageCell :=
  .missing

/-- The whitespace class of JavaScript (space, tab, line feed, carriage
return, vertical tab, form feed, no-break space; further Unicode space
separators are not used by any claim). -/
def isJsWhitespace (c : Char) : Bool :=
  c == ' ' || c == '\t' || c == '\n' || c == '\r' || c == '\x0b' ||
    c == '\x0c' || c == ' '

/-- Characters of `String.prototype.trim`: drop whitespace from both
ends. -/
def trimChars (cs : List Char) : List Char :=
  ((cs.dropWhile isJsWhitespace).reverse.dropWhile isJsWhitespace).reverse

/-- JavaScript `s.trim()`. -/
def jsTrim (s : String) : String :=
  String.mk (trimChars s.data)

/-- normalizeText from app.js lines 39-41: `value ? value.trim() : ""`
(on the string inputs the code applies it to, falsiness is emptiness). -/
def normalizeText (s : String) : String :=
  if s = "" then "" else jsTrim s

/-- The words of a character list, splitting on JavaScript whitespace:
the value of `s.split(/\s+/).filter(Boolean)` (empty fragments produced
by leading, trailing or repeated separators are filtered out). -/
def wordsAux : List Char → List Char → List (List Char)
  | [], acc => if acc = [] then [] else [acc.reverse]
  | c :: cs, acc =>
    if isJsWhitespace c then
      if acc = [] then wordsAux cs [] else acc.reverse :: wordsAux cs []
    else wordsAux cs (c :: acc)

/-- `operatorName.split(/\s+/).filter(Boolean)` from the step-1 handler. -/
def splitTokens (s : String) : List String :=
  (wordsAux s.data []).map String.mk

/-- The regex test `/^[a-z0-9]+$/i.test(s)`: non-empty and every
character an ASCII letter or digit. -/
def alnumOnly (s : String) : Bool :=
  !(s.data = []) && s.data.all Char.isAlphanum

/-- The regex test `/\d/.test(s)`: some character is an ASCII digit. -/
def containsDigit (s : String) : Bool :=
  s.data.any Char.isDigit

/-- The numeric value of a digit string (most significant first). -/
def digitsToNat (ds : List Char) : Nat :=
  ds.foldl (fun a c => a * 10 + (c.toNat - 48)) 0

/-- A decimal literal recognised by Number.parseFloat, kept in exact
form: the value is (-1)^neg * mantissa * 10^(exp - fracLen).  Exact
rationals stand in for IEEE doubles; double overflow to Infinity and
underflow to 0 (magnitudes beyond roughly 1e308 or below 1e-324, which
no claim exercises) are not modelled. -/
structure DecLit where
  neg : Bool
  mantissa : Nat
  fracLen : Nat
  exp : Int
deriving DecidableEq

/-- Result of Number.parseFloat: NaN when no prefix of the input is a
decimal literal, a signed Infinity, or a finite decimal literal. -/
inductive JsParse where
  | nan : JsParse
  | inf (neg : Bool) : JsParse
  | fin (d : DecLit) : JsParse
deriving DecidableEq

/-- The exponent digits after the exponent marker, with optional sign.
When no digit follows, parseFloat backtracks and the exponent part is
not consumed, so it contributes 0. -/
def expDigits (cs : List Char) : Int :=
  match cs with
  | '+' :: r =>
    let ds := r.takeWhile Char.isDigit
    if ds = [] then 0 else (digitsToNat ds : Int)
  | '-' :: r =>
    let ds := r.takeWhile Char.isDigit
    if ds = [] then 0 else -(digitsToNat ds : Int)
  | _ =>
    let ds := cs.takeWhile Char.isDigit
    if ds = [] then 0 else (digitsToNat ds : Int)

/-- The optional exponent part `([eE][+-]?digits)?`. -/
def expPart (cs : List Char) : Int :=
  match cs with
  | 'e' :: r => expDigits r
  | 'E' :: r => expDigits r
  | _ => 0

/-- The unsigned part of a parseFloat literal: the keyword Infinity, or
`digits [. digits] [exp]`, or `. digits [exp]`; anything after the
longest such prefix is ignored. -/
def parseMantissa (neg : Bool) (cs : List Char) : JsParse :=
  if cs.take 8 = "Infinity".data then .inf neg
  else
    let intDs := cs.takeWhile Char.isDigit
    let r1 := cs.dropWhile Char.isDigit
    match r1 with
    | '.' :: r2 =>
      let fracDs := r2.takeWhile Char.isDigit
      let r3 := r2.dropWhile Char.isDigit
      if intDs = [] && fracDs = [] then .nan
      else .fin ⟨neg, digitsToNat (intDs ++ fracDs), fracDs.length, expPart r3⟩
    | _ =>
      if intDs = [] then .nan
      else .fin ⟨neg, digitsToNat intDs, 0, expPart r1⟩

/-- Number.parseFloat: skip leading whitespace, read an optional sign,
then the longest decimal-literal prefix. -/
def jsParseFloat (s : String) : JsParse :=
  match s.data.dropWhile isJsWhitespace with
  | '+' :: r => parseMantissa false r
  | '-' :: r => parseMantissa true r
  | cs => parseMantissa false cs

/-- The step-1 net-weight acceptance test
`Number.isFinite(v) && v > 0` applied to the parseFloat result: NaN and
the infinities fail isFinite; a finite literal is positive exactly when
it is unsigned with a non-zero mantissa, because powers of ten are
positive. -/
def jsFinitePositive (p : JsParse) : Bool :=
  match p with
  | .fin d => !d.neg && decide (0 < d.mantissa)
  | _ => false

/-- The exact rational value of a parsed decimal literal. -/
def DecLit.toRat (d : DecLit) : ℚ :=
  (if d.neg then -1 else 1) * (d.mantissa : ℚ) / (10 : ℚ) ^ d.fracLen *
    (10 : ℚ) ^ d.exp

/-- Sanity check for `jsFinitePositive`: the sign-and-mantissa test used
in the model agrees with positivity of the exact value of the literal. -/
theorem jsFinitePositive_iff_toRat_pos (d : DecLit) :
    jsFinitePositive (.fin d) = true ↔ 0 < d.toRat := by
  have h10 : (0 : ℚ) < (10 : ℚ) ^ d.fracLen := by positivity
  have h10z : (0 : ℚ) < (10 : ℚ) ^ d.exp := by positivity
  cases hneg : d.neg with
  | false =>
    simp only [jsFinitePositive, hneg, Bool.not_false, Bool.true_and,
      decide_eq_true_eq, DecLit.toRat, Bool.false_eq_true, if_false, one_mul]
    constructor
    · intro hm
      have : (0 : ℚ) < (d.mantissa : ℚ) := by exact_mod_cast hm
      exact mul_pos (div_pos this h10) h10z
    · intro hpos
      by_contra hm
      have : d.mantissa = 0 := by omega
      simp [this] at hpos
  | true =>
    simp only [jsFinitePositive, hneg, Bool.not_true, Bool.false_and,
      DecLit.toRat, if_true]
    constructor
    · intro h; exact absurd h (by simp)
    · intro hpos
      exfalso
      have hm : (0 : ℚ) ≤ (d.mantissa : ℚ) := by positivity
      have hdiv : (-1 : ℚ) * (d.mantissa : ℚ) / (10 : ℚ) ^ d.fracLen *
          (10 : ℚ) ^ d.exp ≤ 0 := by
        apply mul_nonpos_of_nonpos_of_nonneg
        · apply div_nonpos_of_nonpos_of_nonneg _ (le_of_lt h10)
          nlinarith
        · exact le_of_lt h10z
      linarith

/-- The raw input values read by the step-1 submit handler
(part_000 lines 186-199): the selected chip-type tag (empty when no
button is pressed), the three per-variant control values, the product
select value, and the raw net-weight and operator strings. -/
structure Step1Input where
  chipType : String
  chipBoxValue : String
  chipBulkValue : String
  chipPurchasedValue : String
  productValue : String
  netWeightValue : String
  operatorValue : String

/-- Outcome of a step-1 submission attempt: a single error naming the
control that receives focus and the message shown, or the new record to
store.  The type makes "at most one error per attempt" structural. -/
inductive Step1Result where
  | error (focusField : String) (message : String) : Step1Result
  | ok (record : Json) : Step1Result

/-- Whether a step-1 outcome is a success. -/
def Step1Result.isOk : Step1Result → Bool
  | .ok _ => true
  | .error _ _ => false

/-- The step-1 submit handler of part_000 lines 186-296, as a pure
function of the stored record and the raw inputs: normalize, then check
the rules in source order with early return, and on success build the
record passed to setStoredData (the spread of the previously stored
value updated with the normalized fields and the promoted boxNumber). -/
def validateStep1 (stored : Json) (i : Step1Input) : Step1Result :=
  let chipType := i.chipType
  let chipBoxNumber := normalizeText i.chipBoxValue
  let chipBulkSilo := normalizeText i.chipBulkValue
  let chipPurchased := i.chipPurchasedValue
  let product := i.productValue
  let netWeight := normalizeText i.netWeightValue
  let operatorName := normalizeText i.operatorValue
  let operatorParts := splitTokens operatorName
  let rest := fun (boxNumber : String) =>
    if product = "" then
      Step1Result.error "product" "Please select a product."
    else if netWeight = "" then
      Step1Result.error "net-weight" "Please enter a net weight."
    else if jsFinitePositive (jsParseFloat netWeight) = false then
      Step1Result.error "net-weight" "Net weight must be a positive number."
    else if operatorParts.length < 2 then
      Step1Result.error "operator-name" "Please enter first and last name."
    else
      Step1Result.ok (stored.withFields
        [("chipType", .str chipType),
         ("chipBoxNumber", .str chipBoxNumber),
         ("chipBulkSilo", .str chipBulkSilo),
         ("chipPurchased", .str chipPurchased),
         ("boxNumber", .str boxNumber),
         ("product", .str product),
         ("netWeight", .str netWeight),
         ("operatorName", .str operatorName)])
  if chipType = "" then
    .error "chip-type" "Please select what type of chip this is."
  else if chipType = "box" then
    if chipBoxNumber = "" then
      .error "chip-box-number" "Please enter a box number."
    else if alnumOnly chipBoxNumber = false then
      .error "chip-box-number" "Box number must be alphanumeric only."
    else rest chipBoxNumber
  else if chipType = "bulk" then
    if chipBulkSilo = "" then
      .error "chip-bulk-silo" "Please enter a bulk/silo value."
    else if containsDigit chipBulkSilo = true then
      .error "chip-bulk-silo" "Bulk/Silo must not contain numbers."
    else rest chipBulkSilo
  else if chipType = "purchased" then
    if chipPurchased = "" then
      .error "chip-purchased" "Please select a purchased chip option."
    else rest chipPurchased
  else
    .error "chip-type" "Please select what type of chip this is."

/-- The step-1 validation cascade as the specification words it: rule 1,
the chip-type tag is one of box, bulk, purchased; rule 2, the selected
variant value is present and satisfies its character class
(alphanumeric-only for box, no digits for bulk, non-empty for purchased,
whose membership in the option set is enforced by the select control
upstream of the validator); rule 3, product non-empty; rule 4, net
weight non-empty and parsing to a finite number greater than zero;
rule 5, operator name normalizing to at least two whitespace-separated
tokens.  The first failing rule is reported; on success the record
receives the normalized fields with the selected variant value promoted
into the canonical boxNumber field. -/
def step1Cascade (stored : Json) (i : Step1Input) : Step1Result :=
  let chipType := i.chipType
  let chipBoxNumber := normalizeText i.chipBoxValue
  let chipBulkSilo := normalizeText i.chipBulkValue
  let chipPurchased := i.chipPurchasedValue
  let product := i.productValue
  let netWeight := normalizeText i.netWeightValue
  let operatorName := normalizeText i.operatorValue
  if ¬(chipType = "box" ∨ chipType = "bulk" ∨ chipType = "purchased") then
    .error "chip-type" "Please select what type of chip this is."
  else
    let variantValue :=
      if chipType = "box" then chipBoxNumber
      else if chipType = "bulk" then chipBulkSilo
      else chipPurchased
    if variantValue = "" then
      .error
        (if chipType = "box" then "chip-box-number"
         else if chipType = "bulk" then "chip-bulk-silo"
         else "chip-purchased")
        (if chipType = "box" then "Please enter a box number."
         else if chipType = "bulk" then "Please enter a bulk/silo value."
         else "Please select a purchased chip option.")
    else if chipType = "box" ∧ ¬(chipBoxNumber.data.all Char.isAlphanum = true) then
      .error "chip-box-number" "Box number must be alphanumeric only."
    else if chipType = "bulk" ∧ chipBulkSilo.data.any Char.isDigit = true then
      .error "chip-bulk-silo" "Bulk/Silo must not contain numbers."
    else if product = "" then
      .error "product" "Please select a product."
    else if netWeight = "" then
      .error "net-weight" "Please enter a net weight."
    else if ¬(jsFinitePositive (jsParseFloat netWeight) = true) then
      .error "net-weight" "Net weight must be a positive number."
    else if (splitTokens operatorName).length < 2 then
      .error "operator-name" "Please enter first and last name."
    else
      .ok (stored.withFields
        [("chipType", .str chipType),
         ("chipBoxNumber", .str chipBoxNumber),
         ("chipBulkSilo", .str chipBulkSilo),
         ("chipPurchased", .str chipPurchased),
         ("boxNumber", .str variantValue),
         ("product", .str product),
         ("netWeight", .str netWeight),
         ("operatorName", .str operatorName)])

/-- On a non-empty string the full regex `/^[a-z0-9]+$/i` reduces to the
per-character class check. -/
theorem alnumOnly_of_ne (s : String) (h : ¬s = "") :
    alnumOnly s = s.data.all Char.isAlphanum := by
  cases s with
  | mk data =>
    have hd : ¬data = [] := by
      intro hnil
      subst hnil
      exact h rfl
    simp [alnumOnly, hd]

/-- Shared refinement fact: the submit handler equals the
specification-ordered cascade on every input. -/
theorem step1_eq (stored : Json) (i : Step1Input) :
    validateStep1 stored i = step1Cascade stored i := by
  unfold validateStep1 step1Cascade
  by_cases h1 : i.chipType = "box"
  · by_cases hb : normalizeText i.chipBoxValue = ""
    · simp [h1, hb]
    · simp [h1, hb, alnumOnly_of_ne _ hb, Bool.not_eq_true]
  · by_cases h2 : i.chipType = "bulk"
    · simp [h2, containsDigit]
    · by_cases h3 : i.chipType = "purchased"
      · simp [h3]
      · by_cases h0 : i.chipType = ""
        · simp [h0]
        · simp [h0, h1, h2, h3]

/-- The fixed ledger header of server.cjs lines 14-22. -/
def HEADERS : List String :=
  ["Box Number", "Product", "Operator Name", "Chip Destination", "Date",
   "Time", "Net Weight"]

/-- getTrimmedString from server.cjs lines 27-29: trim a string value,
anything else (absent, null, number, object) becomes the empty string. -/
def getTrimmedString : Option Json → String
  | some (.str s) => jsTrim s
  | _ => ""

/-- normalizeHeaderValue from server.cjs lines 31-33: trimmed and
lower-cased (JavaScript toLowerCase on the ASCII headers in play). -/
def normalizeHeaderValue (j : Json) : String :=
  String.mk ((getTrimmedString (some j)).data.map Char.toLower)

/-- Trim and lower-case one of the expected header strings. -/
def normalizeHeaderString (s : String) : String :=
  String.mk ((jsTrim s).data.map Char.toLower)

/-- headersMatch from server.cjs lines 35-45: the actual first row must
be an array at least as long as the expected list, and each expected
header must equal the cell at its index after normalization — a
case-insensitive comparison of the 7-column prefix, ignoring any extra
columns. `none` stands for a missing first row (sheet_to_json yielding
undefined), which does not match. -/
def headersMatch (expected : List String) (actual : Option (List Json)) :
    Bool :=
  match actual with
  | none => false
  | some row =>
    decide (expected.length ≤ row.length) &&
      (expected.zip row).all fun p =>
        normalizeHeaderValue p.2 = normalizeHeaderString p.1

/-- The validated payload of server.cjs lines 48-80: the five trimmed
fields and the list of missing field names, pushed in source order. -/
structure SavePayload where
  boxNumber : String
  product : String
  operatorName : String
  destination : String
  netWeight : String
  missing : List String

/-- validatePayload from server.cjs lines 48-80. -/
def validatePayload (body : Json) : SavePayload :=
  let boxNumber := getTrimmedString (body.getField "boxNumber")
  let product := getTrimmedString (body.getField "product")
  let operatorName := getTrimmedString (body.getField "operatorName")
  let destination := getTrimmedString (body.getField "destination")
  let netWeight := getTrimmedString (body.getField "netWeight")
  { boxNumber := boxNumber
    product := product
    operatorName := operatorName
    destination := destination
    netWeight := netWeight
    missing :=
      (if boxNumber = "" then ["boxNumber"] else []) ++
      (if product = "" then ["product"] else []) ++
      (if operatorName = "" then ["operatorName"] else []) ++
      (if destination = "" then ["destination"] else []) ++
      (if netWeight = "" then ["netWeight"] else []) }

/-- The worksheet named Sheet1 as the save endpoint sees it: absent from
the workbook (also covering a brand-new workbook), present but with an
undefined `!ref` range, or present with its rows (cells as parsed JSON
scalars). -/
inductive Sheet where
  | absent : Sheet
  | blank : Sheet
  | rows (rs : List (List Json)) : Sheet

/-- Write the seven expected headers into the cells A1..G1, keeping any
further cells of the first row (sheet_add_aoa at origin A1). -/
def stampHeaders (rs : List (List Json)) : List (List Json) :=
  match rs with
  | [] => [HEADERS.map Json.str]
  | r :: rest => (HEADERS.map Json.str ++ r.drop HEADERS.length) :: rest

/-- getOrCreateWorksheet from server.cjs lines 97-119: create the sheet
with a header row when absent, stamp the header row into an empty sheet,
and re-stamp it when the existing first row does not match the expected
headers; otherwise leave the rows unchanged. -/
def getOrCreateWorksheet : Sheet → List (List Json)
  | .absent => [HEADERS.map Json.str]
  | .blank => [HEADERS.map Json.str]
  | .rows rs =>
    if headersMatch HEADERS rs.head? then rs else stampHeaders rs

/-- Response and resulting worksheet of one POST /save request. -/
structure SaveOutcome where
  status : Nat
  succeeded : Bool
  sheet : Sheet

/-- The POST /save handler of server.cjs lines 121-171: reject with 400
and an untouched sheet when any field is missing or blank; otherwise
ensure the worksheet and its header exist, append exactly one row in the
order boxNumber, product, operatorName, destination, date, time,
netWeight (sheet_add_aoa at origin -1), and answer success.  `ioOk`
models whether reading and writing the Excel file succeeds; on failure
the handler answers 500 and the file on disk is unchanged. -/
def handleSave (body : Json) (date time : String) (ioOk : Bool)
    (sheet : Sheet) : SaveOutcome :=
  let v := validatePayload body
  if v.missing = [] then
    if ioOk then
      let row : List Json :=
        [.str v.boxNumber, .str v.product, .str v.operatorName,
         .str v.destination, .str date, .str time, .str v.netWeight]
      { status := 200, succeeded := true,
        sheet := .rows (getOrCreateWorksheet sheet ++ [row]) }
    else
      { status := 500, succeeded := false, sheet := sheet }
  else
    { status := 400, succeeded := false, sheet := sheet }

/-- The three pages of the wizard: index.html (step 1, the chip form),
destination.html (step 2) and summary.html (step 3). -/
inductive Page where
  | form : Page
  | destination : Page
  | summary : Page
deriving DecidableEq

/-- The delay in milliseconds before the post-save redirect
(part_000 line 474). -/
def REDIRECT_DELAY_MS : Nat := 3000

/-- The step-1 entry fields guarded by both later pages
(part_000 lines 306-316 and 365-380): a record "has" them when each is
truthy, exactly the `!stored.field` tests of the code. -/
def hasStep1Fields (j : Json) : Bool :=
  fieldTruthy j "boxNumber" && fieldTruthy j "product" &&
    fieldTruthy j "netWeight" && fieldTruthy j "operatorName"

/-- Where a navigation to page `p` actually lands given the stored
record: the destination page silently redirects to step 1 when the
step-1 fields are not all present, and the summary page additionally
redirects to step 2 when no destination is stored.  Step 1 always
renders. -/
def resolveEntry (p : Page) (stored : Json) : Page :=
  match p with
  | .form => .form
  | .destination =>
    if hasStep1Fields stored then .destination else .form
  | .summary =>
    if hasStep1Fields stored then
      if fieldTruthy stored "destination" then .summary else .destination
    else .form

/-- The full client state: the page being shown, the localStorage cell,
and the summary-page session state — whether the save control is
disabled, how many save requests are in flight (0 or 1) and the running
total sent, whether the clear-and-redirect timer is armed, the alerts
shown so far, the step-1 error text, the save status text, and a history
flag recording whether any submission has succeeded since the store was
last cleared. -/
structure WizState where
  page : Page
  cell : StorageCell
  disabled : Bool
  outstanding : Nat
  requestsSent : Nat
  timerSet : Bool
  alerts : List String
  formError : String
  saveMsg : String
  succeededEver : Bool

/-- The state on first visit: step 1 with an absent storage key and a
fresh session. -/
def initWiz : WizState :=
  { page := .form, cell := .missing, disabled := false, outstanding := 0,
    requestsSent := 0, timerSet := false, alerts := [], formError := "",
    saveMsg := "", succeededEver := false }

/-- The events the code installs handlers for.  `nav` is a page
(re)load; `chipClick` is a click on a chip-type button on step 1;
`step1Submit` and `step2Submit` are the two form submissions;
`saveClick` is the final save button; `saveRespOk ts` and `saveRespFail`
are the fetch resolving at timestamp `ts` with an ok or non-ok response
(a transport error takes the same catch path as a rejected status);
`timerFire` is the armed 3-second redirect timer elapsing. -/
inductive WizEvent where
  | nav (p : Page) : WizEvent
  | chipClick (t : String) : WizEvent
  | step1Submit (i : Step1Input) : WizEvent
  | step2Submit (sel : Option String) : WizEvent
  | saveClick : WizEvent
  | saveRespOk (ts : String) : WizEvent
  | saveRespFail : WizEvent
  | timerFire : WizEvent

/-- Load a page: apply the entry guards to decide where the navigation
lands, and reset the session-local parts of the state — a page unload
aborts an in-flight fetch and cancels pending timers, and the fresh
document starts with an enabled save control and empty messages. -/
def navTo (s : WizState) (p : Page) : WizState :=
  { s with page := resolveEntry p (getStoredData s.cell),
           disabled := false, outstanding := 0, timerSet := false,
           formError := "", saveMsg := "" }

/-- One transition of the wizard.  Each branch follows the
corresponding handler in part_000; events whose page guard does not hold
are no-ops because the handler is not installed on that page. -/
def wizStep (s : WizState) : WizEvent → WizState
  | .nav p => navTo s p
  | .chipClick t =>
    if s.page = .form ∧ ¬t = "" then
      { s with cell :=
          setStoredData ((getStoredData s.cell).setField "chipType" (.str t)) }
    else s
  | .step1Submit i =>
    if s.page = .form then
      match validateStep1 (getStoredData s.cell) i with
      | .error _ m => { s with formError := m }
      | .ok r => navTo { s with cell := setStoredData r } .destination
    else s
  | .step2Submit sel =>
    if s.page = .destination then
      match sel with
      | none => s
      | some v =>
        let cell2 :=
          setStoredData
            ((getStoredData s.cell).setField "destination" (.str v))
        navTo { s with cell := cell2 } .summary
    else s
  | .saveClick =>
    if s.page = .summary ∧ s.disabled = false then
      { s with disabled := true, saveMsg := "",
               outstanding := s.outstanding + 1,
               requestsSent := s.requestsSent + 1 }
    else s
  | .saveRespOk ts =>
    if s.outstanding = 0 then s
    else
      { s with outstanding := s.outstanding - 1,
               alerts := s.alerts ++ ["Saved to Excel."],
               cell :=
                 setStoredData
                   ((getStoredData s.cell).setField "savedAt" (.str ts)),
               saveMsg := "Saved at " ++ ts ++
                 ". Redirecting to the first page in 3 seconds.",
               timerSet := true, succeededEver := true }
  | .saveRespFail =>
    if s.outstanding = 0 then s
    else
      { s with outstanding := s.outstanding - 1, disabled := false,
               alerts := s.alerts ++ ["Save failed. Please try again."] }
  | .timerFire =>
    if s.timerSet then
      navTo { s with cell := clearStoredData, timerSet := false } .form
    else s

/-- The states the wizard can reach from a first visit. -/
inductive Reachable : WizState → Prop where
  | init : Reachable initWiz
  | step (s : WizState) (e : WizEvent) :
      Reachable s → Reachable (wizStep s e)

/-- Session invariant maintained by every transition: at most one save
request is in flight; while one is in flight the save control is
disabled, no redirect timer is armed and the summary page is showing;
while the control is enabled nothing is in flight and no timer is armed;
and an armed timer implies a submission has succeeded. -/
def WizInv (s : WizState) : Prop :=
  s.outstanding ≤ 1 ∧
  (s.outstanding = 1 →
    s.disabled = true ∧ s.timerSet = false ∧ s.page = .summary) ∧
  (s.disabled = false → s.outstanding = 0 ∧ s.timerSet = false) ∧
  (s.timerSet = true → s.succeededEver = true)

/-- The initial state satisfies the session invariant. -/
theorem wizInv_init : WizInv initWiz := by
  simp [WizInv, initWiz]

/-- Every transition preserves the session invariant. -/
theorem wizInv_step (s : WizState) (e : WizEvent) (h : WizInv s) :
    WizInv (wizStep s e) := by
  obtain ⟨h1, h2, h3, h4⟩ := h
  cases e with
  | nav p => simp_all [wizStep, navTo, WizInv]
  | chipClick t =>
    simp only [wizStep]
    split
    · simp_all [WizInv]
    · exact ⟨h1, h2, h3, h4⟩
  | step1Submit i =>
    simp only [wizStep]
    split
    · cases hv : validateStep1 (getStoredData s.cell) i with
      | error f m => simp_all [WizInv]
      | ok r => simp_all [WizInv, navTo]
    · exact ⟨h1, h2, h3, h4⟩
  | step2Submit sel =>
    simp only [wizStep]
    split
    · cases sel with
      | none => exact ⟨h1, h2, h3, h4⟩
      | some v => simp_all [WizInv, navTo]
    · exact ⟨h1, h2, h3, h4⟩
  | saveClick =>
    simp only [wizStep]
    split
    · rename_i hc
      obtain ⟨hp, hd⟩ := hc
      obtain ⟨ho, ht⟩ := h3 hd
      simp_all [WizInv]
    · exact ⟨h1, h2, h3, h4⟩
  | saveRespOk ts =>
    simp only [wizStep]
    split
    · exact ⟨h1, h2, h3, h4⟩
    · rename_i ho
      have : s.outstanding = 1 := by omega
      obtain ⟨hd, ht, hp⟩ := h2 this
      simp_all [WizInv]
  | saveRespFail =>
    simp only [wizStep]
    split
    · exact ⟨h1, h2, h3, h4⟩
    · rename_i ho
      have : s.outstanding = 1 := by omega
      obtain ⟨hd, ht, hp⟩ := h2 this
      simp_all [WizInv]
  | timerFire =>
    simp only [wizStep]
    split
    · simp_all [WizInv, navTo]
    · exact ⟨h1, h2, h3, h4⟩

/-- Every reachable state satisfies the session invariant. -/
theorem reachable_inv (s : WizState) (h : Reachable s) : WizInv s := by
  induction h with
  | init => exact wizInv_init
  | step s e _ ih => exact wizInv_step s e ih

theorem lookupLast_append_single (fs : List (String × Json)) (k : String)
    (v : Json) : lookupLast (fs ++ [(k, v)]) k = some v := by
  induction fs with
  | nil => simp [lookupLast]
  | cons p rest ih =>
    obtain ⟨k1, v1⟩ := p
    simp [lookupLast, ih]

theorem lookupLast_append_single_ne (fs : List (String × Json))
    (k k2 : String) (v : Json) (hne : ¬k = k2) :
    lookupLast (fs ++ [(k, v)]) k2 = lookupLast fs k2 := by
  induction fs with
  | nil => simp [lookupLast, hne]
  | cons p rest ih =>
    obtain ⟨k1, v1⟩ := p
    simp [lookupLast, ih]

theorem lookupLast_none_of_not_mem (fs : List (String × Json)) (k : String)
    (h : (fs.any fun p => p.1 = k) = false) : lookupLast fs k = none := by
  induction fs with
  | nil => rfl
  | cons p rest ih =>
    obtain ⟨k1, v1⟩ := p
    simp only [List.any_cons, Bool.or_eq_false_iff] at h
    obtain ⟨hk, hrest⟩ := h
    simp only [lookupLast, ih hrest]
    simp only [decide_eq_false_iff_not] at hk
    simp [hk]

theorem lookupLast_map_update (fs : List (String × Json)) (k : String)
    (v : Json) (h : (fs.any fun p => p.1 = k) = true) :
    lookupLast (fs.map fun p => if p.1 = k then (k, v) else p) k = some v := by
  induction fs with
  | nil => simp at h
  | cons p rest ih =>
    obtain ⟨k1, v1⟩ := p
    by_cases hrest : (rest.any fun p => p.1 = k) = true
    · simp only [List.map_cons, lookupLast]
      rw [ih hrest]
    · have hk1 : k1 = k := by
        simp only [List.any_cons, Bool.or_eq_true] at h
        rcases h with h | h
        · simpa using h
        · exact absurd h hrest
      subst hk1
      have hnone :
          lookupLast (rest.map fun p => if p.1 = k1 then (k1, v) else p) k1 =
            none := by
        apply lookupLast_none_of_not_mem
        rw [List.any_map]
        rw [Bool.eq_false_iff]
        intro hc
        apply hrest
        rw [List.any_eq_true] at hc ⊢
        obtain ⟨p, hp, hpk⟩ := hc
        refine ⟨p, hp, ?_⟩
        by_cases hp1 : p.1 = k1
        · simp [hp1]
        · simp [Function.comp, hp1] at hpk
      rw [List.map_cons, if_pos (show ((k1, v1)).1 = k1 from rfl)]
      simp [lookupLast, hnone]

theorem lookupLast_map_update_ne (fs : List (String × Json))
    (k k2 : String) (v : Json) (hne : ¬k = k2) :
    lookupLast (fs.map fun p => if p.1 = k then (k, v) else p) k2 =
      lookupLast fs k2 := by
  induction fs with
  | nil => rfl
  | cons p rest ih =>
    obtain ⟨k1, v1⟩ := p
    by_cases h1 : k1 = k
    · rw [List.map_cons, if_pos (show ((k1, v1)).1 = k from by simp [h1])]
      simp only [lookupLast, ih]
      cases lookupLast rest k2 <;> simp [hne, h1]
    · rw [List.map_cons, if_neg (show ¬((k1, v1)).1 = k from by simp [h1])]
      simp only [lookupLast, ih]

theorem lookupLast_setKey (fs : List (String × Json)) (k k2 : String)
    (v : Json) :
    lookupLast (setKey fs k v) k2 =
      if k = k2 then some v else lookupLast fs k2 := by
  by_cases hk : k = k2
  · subst hk
    simp only [if_pos rfl]
    unfold setKey
    split
    · exact lookupLast_map_update _ _ _ (by assumption)
    · exact lookupLast_append_single _ _ _
  · simp only [if_neg hk]
    unfold setKey
    split
    · exact lookupLast_map_update_ne _ _ _ _ hk
    · exact lookupLast_append_single_ne _ _ _ _ hk

theorem Json.spreadFields_setField (j : Json) (k : String) (v : Json) :
    (j.setField k v).spreadFields = setKey j.spreadFields k v := rfl

theorem Json.getField_setField (j : Json) (k k2 : String) (v : Json) :
    (j.setField k v).getField k2 =
      if k = k2 then some v else lookupLast j.spreadFields k2 :=
  lookupLast_setKey _ _ _ _

theorem digit_not_jsWhitespace (c : Char) (h : c.isDigit = true) :
    isJsWhitespace c = false := by
  rw [Bool.eq_false_iff]
  intro hw
  simp only [isJsWhitespace, Bool.or_eq_true, beq_iff_eq] at hw
  rcases hw with ((((((rfl | rfl) | rfl) | rfl) | rfl) | rfl) | rfl) <;>
    exact absurd h (by decide)

theorem any_digit_dropWhile (cs : List Char)
    (h : cs.any Char.isDigit = true) :
    (cs.dropWhile isJsWhitespace).any Char.isDigit = true := by
  induction cs with
  | nil => simp at h
  | cons c rest ih =>
    by_cases hw : isJsWhitespace c = true
    · rw [List.dropWhile_cons_of_pos hw]
      apply ih
      simp only [List.any_cons, Bool.or_eq_true] at h
      rcases h with h | h
      · exact absurd (digit_not_jsWhitespace c h) (by simp [hw])
      · exact h
    · rw [List.dropWhile_cons_of_neg hw]
      exact h

theorem any_digit_trimChars (cs : List Char)
    (h : cs.any Char.isDigit = true) :
    (trimChars cs).any Char.isDigit = true := by
  unfold trimChars
  rw [List.any_reverse]
  apply any_digit_dropWhile
  rw [List.any_reverse]
  exact any_digit_dropWhile _ h

theorem containsDigit_normalizeText (s : String)
    (h : containsDigit s = true) : containsDigit (normalizeText s) = true := by
  unfold normalizeText
  by_cases hs : s = ""
  · subst hs
    exact absurd h (by decide)
  · rw [if_neg hs]
    unfold containsDigit at h ⊢
    show (trimChars s.data).any Char.isDigit = true
    exact any_digit_trimChars _ h

/-- C1: the step-1 validator checks its rules in the fixed order
(1) chip-type tag in box, bulk, purchased; (2) selected variant value
present and in its character class; (3) product non-empty; (4) net
weight non-empty and parsing to a finite number greater than zero;
(5) operator name normalizing to at least two tokens — with the first
failure short-circuiting, so at most one error (a structural fact of
`Step1Result`) is surfaced per attempt, and on success the stored record
receives the trimmed fields with the selected variant value promoted
into the canonical boxNumber field: the handler equals the
specification-ordered cascade on every stored record and input. -/
theorem step1_checks_in_fixed_order (stored : Json) (i : Step1Input) :
    validateStep1 stored i = step1Cascade stored i :=
  step1_eq stored i

/-- C8: loading the wizard state from a missing key, from a stored
string that is not valid JSON, or from JSON encoding a falsy value,
yields the empty record; `getStoredData` is total, so no such input
raises to the caller. -/
theorem load_degrades_to_empty (c : StorageCell)
    (h : c = .missing ∨ c = .corrupt ∨
      ∃ j, c = .value j ∧ jsonFalsy j = true) :
    getStoredData c = Json.obj [] := by
  rcases h with rfl | rfl | ⟨j, rfl, hj⟩
  · rfl
  · rfl
  · simp [getStoredData, hj]

/-- Witness for C8 at the concrete corrupt cell. -/
theorem load_degrades_to_empty_witness :
    getStoredData StorageCell.corrupt = Json.obj [] :=
  load_degrades_to_empty StorageCell.corrupt (Or.inr (Or.inl rfl))

/-- C9: loading, saving the loaded record unchanged, and loading again
yields the same record, for every state of the storage cell. -/
theorem store_roundtrip_idempotent (c : StorageCell) :
    getStoredData (setStoredData (getStoredData c)) = getStoredData c := by
  cases c with
  | missing => rfl
  | corrupt => rfl
  | value j =>
    by_cases hj : jsonFalsy j = true
    · simp [getStoredData, setStoredData, hj]
    · simp [getStoredData, setStoredData, hj]

/-- C3: a navigation lands where the entry guards direct it; a record
in which any of the four step-1 fields is absent makes both the
destination and the summary page silently redirect to step 1 (the guard
tests truthiness, so an absent field — and equally a falsy one — fails
it); a record with all step-1 fields present (truthy) but destination
not present makes the summary page redirect to step 2; and the empty
store redirects both pages to step 1. -/
theorem entry_guards_redirect :
    (∀ (s : WizState) (p : Page),
      (wizStep s (.nav p)).page = resolveEntry p (getStoredData s.cell)) ∧
    (∀ j : Json,
      (j.getField "boxNumber" = none ∨ j.getField "product" = none ∨
        j.getField "netWeight" = none ∨ j.getField "operatorName" = none) →
      resolveEntry .destination j = .form ∧ resolveEntry .summary j = .form) ∧
    (∀ j : Json, hasStep1Fields j = true →
      fieldTruthy j "destination" = false →
      resolveEntry .summary j = .destination) ∧
    (resolveEntry .destination (getStoredData .missing) = .form ∧
      resolveEntry .summary (getStoredData .missing) = .form) := by
  refine ⟨fun s p => rfl, ?_, ?_, by constructor <;> rfl⟩
  · intro j h
    have hfs : hasStep1Fields j = false := by
      rcases h with h | h | h | h <;>
        simp [hasStep1Fields, fieldTruthy, h]
    constructor <;> simp [resolveEntry, hfs]
  · intro j h1 h2
    simp [resolveEntry, h1, h2]

/-- Witness for C3: the empty record redirects the destination page to
step 1. -/
theorem entry_guards_redirect_witness :
    resolveEntry .destination (Json.obj []) = .form ∧
      resolveEntry .summary (Json.obj []) = .form :=
  entry_guards_redirect.2.1 (Json.obj []) (Or.inl rfl)

/-- The record stored by a successful step-1 submission: the spread of
the prior record updated with the normalized fields, the promoted
variant value as boxNumber among them. -/
def step1Record (stored : Json) (i : Step1Input) (variantValue : String) :
    Json :=
  stored.withFields
    [("chipType", .str i.chipType),
     ("chipBoxNumber", .str (normalizeText i.chipBoxValue)),
     ("chipBulkSilo", .str (normalizeText i.chipBulkValue)),
     ("chipPurchased", .str i.chipPurchasedValue),
     ("boxNumber", .str variantValue),
     ("product", .str i.productValue),
     ("netWeight", .str (normalizeText i.netWeightValue)),
     ("operatorName", .str (normalizeText i.operatorValue))]

set_option maxHeartbeats 2000000 in
set_option linter.unusedTactic false in
/-- Inversion of a successful step-1 submission: success implies every
rule passed and pins down the stored record. -/
theorem step1_ok_facts (stored : Json) (i : Step1Input) (r : Json)
    (h : validateStep1 stored i = .ok r) :
    (i.chipType = "box" ∨ i.chipType = "bulk" ∨ i.chipType = "purchased") ∧
    (i.chipType = "box" →
      (normalizeText i.chipBoxValue).data.all Char.isAlphanum = true) ∧
    (i.chipType = "bulk" →
      containsDigit (normalizeText i.chipBulkValue) = false) ∧
    jsFinitePositive (jsParseFloat (normalizeText i.netWeightValue)) = true ∧
    ¬(splitTokens (normalizeText i.operatorValue)).length < 2 ∧
    ¬i.productValue = "" ∧ ¬normalizeText i.netWeightValue = "" ∧
    r = step1Record stored i
      (if i.chipType = "box" then normalizeText i.chipBoxValue
       else if i.chipType = "bulk" then normalizeText i.chipBulkValue
       else i.chipPurchasedValue) := by
  rw [step1_eq] at h
  simp only [step1Cascade] at h
  split_ifs at h
  all_goals injection h with hr
  all_goals subst hr
  all_goals
    refine ⟨by tauto, ?_, ?_, by tauto, by tauto, by tauto, by tauto, ?_⟩
  any_goals
    intro hb
    rw [List.all_eq_true]
    intro c hc
    by_contra hcc
    simp only [Bool.not_eq_true] at hcc
    tauto
  any_goals
    intro hb
    rw [Bool.eq_false_iff]
    simp only [containsDigit]
    tauto
  all_goals simp_all [step1Record]

/-- The malformed-input conditions of the claim, with the box clause on
the trimmed value (the validator trims before testing the character
class): unknown chip-type tag; trimmed box value with a character
outside the alphanumeric class; bulk value containing a digit; net
weight whose parse is not a finite positive number; operator name with
fewer than two tokens. -/
def malformedStep1 (i : Step1Input) : Prop :=
  (¬(i.chipType = "box" ∨ i.chipType = "bulk" ∨ i.chipType = "purchased")) ∨
  (i.chipType = "box" ∧
    (normalizeText i.chipBoxValue).data.all Char.isAlphanum = false) ∨
  (i.chipType = "bulk" ∧ containsDigit i.chipBulkValue = true) ∨
  jsFinitePositive (jsParseFloat (normalizeText i.netWeightValue)) = false ∨
  (splitTokens (normalizeText i.operatorValue)).length < 2

/-- A malformed input never validates: some rule reports an error. -/
theorem malformed_not_ok (stored : Json) (i : Step1Input)
    (hm : malformedStep1 i) :
    ∃ f m, validateStep1 stored i = .error f m := by
  cases hv : validateStep1 stored i with
  | error f m => exact ⟨f, m, rfl⟩
  | ok r =>
    exfalso
    obtain ⟨htag, hbox, hbulk, hfin, htok, hprod, hnw, hrec⟩ :=
      step1_ok_facts stored i r hv
    rcases hm with hA | ⟨hB1, hB2⟩ | ⟨hC1, hC2⟩ | hD | hE
    · exact hA htag
    · rw [hbox hB1] at hB2
      exact Bool.noConfusion hB2
    · rw [containsDigit_normalizeText _ hC2] at hbulk
      exact Bool.noConfusion (hbulk hC1)
    · rw [hfin] at hD
      exact Bool.noConfusion hD
    · exact htok hE

/-- C2 (amended): for every step-1 submission whose input is malformed
— chip-type tag not in box, bulk, purchased; box value whose trimmed
form contains a non-alphanumeric character; bulk or silo value
containing a digit; net-weight string that does not parse to a finite
number greater than zero (including "0", "-5", "abc", ""); or operator
name with fewer than two whitespace-separated tokens after trimming —
validation fails with a field-specific message, no navigation occurs,
and the stored record is not mutated: the only state change is the
error text. -/
theorem step1_malformed_rejected (s : WizState) (i : Step1Input)
    (hp : s.page = .form) (hm : malformedStep1 i) :
    ∃ f m, validateStep1 (getStoredData s.cell) i = .error f m ∧
      wizStep s (.step1Submit i) = { s with formError := m } := by
  obtain ⟨f, m, hv⟩ := malformed_not_ok (getStoredData s.cell) i hm
  exact ⟨f, m, hv, by simp [wizStep, hp, hv]⟩

/-- Witness for C2 at scenario B of the specification: a net weight of
"-3" on the step-1 page is rejected and only the error text changes. -/
theorem step1_malformed_rejected_witness :
    ∃ f m,
      validateStep1 (getStoredData initWiz.cell)
          ⟨"box", "A1B2", "", "", "Resin-X", "-3", "Jane Doe"⟩ =
        .error f m ∧
      wizStep initWiz
          (.step1Submit ⟨"box", "A1B2", "", "", "Resin-X", "-3", "Jane Doe"⟩) =
        { initWiz with formError := m } :=
  step1_malformed_rejected initWiz
    ⟨"box", "A1B2", "", "", "Resin-X", "-3", "Jane Doe"⟩ rfl
    (Or.inr (Or.inr (Or.inr (Or.inl (by decide)))))

/-- Counterexample for C2 as stated: the raw box value " A1 " contains
non-alphanumeric characters (spaces), yet the submission succeeds,
because the validator trims the value before applying the character
class; the failure the claim asserts for every box value containing a
non-alphanumeric character does not occur. -/
theorem step1_box_value_counterexample :
    (" A1 ").data.all Char.isAlphanum = false ∧
      (validateStep1 (Json.obj [])
          ⟨"box", " A1 ", "", "", "Nylon 6", "12.5", "Jane Doe"⟩).isOk =
        true := by
  constructor
  · decide
  · rfl

/-- C10: the net-weight check applies Number.parseFloat to the trimmed
string, so a string whose leading numeric prefix parses to a finite
number greater than zero passes even with trailing non-numeric
characters — "12abc" and "3.5kg" are accepted — the whole string is
never required to be numeric, and on success the trimmed input string
itself, junk included, is stored verbatim in the netWeight field. -/
theorem netweight_head_accepted :
    (∀ (stored : Json) (i : Step1Input) (r : Json),
      validateStep1 stored i = .ok r →
      r.getField "netWeight" =
        some (.str (normalizeText i.netWeightValue))) ∧
    (∀ (stored : Json) (i : Step1Input),
      i.chipType = "box" →
      alnumOnly (normalizeText i.chipBoxValue) = true →
      ¬i.productValue = "" →
      ¬normalizeText i.netWeightValue = "" →
      jsFinitePositive (jsParseFloat (normalizeText i.netWeightValue)) = true →
      ¬(splitTokens (normalizeText i.operatorValue)).length < 2 →
      (validateStep1 stored i).isOk = true) ∧
    (jsFinitePositive (jsParseFloat "12abc") = true ∧
      jsFinitePositive (jsParseFloat "3.5kg") = true) := by
  refine ⟨?_, ?_, by constructor <;> rfl⟩
  · intro stored i r h
    obtain ⟨-, -, -, -, -, -, -, hrec⟩ := step1_ok_facts stored i r h
    subst hrec
    simp [step1Record, Json.withFields, Json.getField_setField,
      Json.spreadFields_setField, lookupLast_setKey]
  · intro stored i hty hal hprod hnw hfin htok
    have hal2 := hal
    simp only [alnumOnly, Bool.and_eq_true] at hal2
    obtain ⟨hne0, hall⟩ := hal2
    have hne : ¬normalizeText i.chipBoxValue = "" := by
      intro he
      rw [he] at hal
      exact absurd hal (by decide)
    rw [step1_eq]
    simp only [step1Cascade]
    simp [hty, hne, hall, hprod, hnw, hfin, htok, Step1Result.isOk]

/-- Witness for C10 at the concrete input "12abc": the submission
succeeds and the stored netWeight is the string "12abc" itself. -/
theorem netweight_head_accepted_witness :
    ∃ r,
      validateStep1 (Json.obj [])
          ⟨"box", "B7", "", "", "Nylon 6", "12abc", "Jane Doe"⟩ = .ok r ∧
      r.getField "netWeight" = some (.str "12abc") := by
  refine ⟨_, rfl, ?_⟩
  exact netweight_head_accepted.1 (Json.obj [])
    ⟨"box", "B7", "", "", "Nylon 6", "12abc", "Jane Doe"⟩ _ rfl

/-- C7: when every one of the five body fields trims to a non-blank
string, POST /save appends exactly one row in the 7-column order
boxNumber, product, operatorName, destination, date, time, netWeight
(date and time in separate columns) and answers success; when any field
is missing or blank it answers 400 and appends nothing, whatever the
I/O outcome; the header row is created when the worksheet is new or
empty, re-stamped when the existing first row fails the
case-insensitive prefix comparison, and left alone when it passes. -/
theorem save_endpoint_contract :
    (∀ (body : Json) (date time : String) (sheet : Sheet),
      ¬getTrimmedString (body.getField "boxNumber") = "" →
      ¬getTrimmedString (body.getField "product") = "" →
      ¬getTrimmedString (body.getField "operatorName") = "" →
      ¬getTrimmedString (body.getField "destination") = "" →
      ¬getTrimmedString (body.getField "netWeight") = "" →
      handleSave body date time true sheet =
        { status := 200, succeeded := true,
          sheet := .rows (getOrCreateWorksheet sheet ++
            [[.str (getTrimmedString (body.getField "boxNumber")),
              .str (getTrimmedString (body.getField "product")),
              .str (getTrimmedString (body.getField "operatorName")),
              .str (getTrimmedString (body.getField "destination")),
              .str date, .str time,
              .str (getTrimmedString (body.getField "netWeight"))]]) }) ∧
    (∀ (body : Json) (date time : String) (io : Bool) (sheet : Sheet),
      (getTrimmedString (body.getField "boxNumber") = "" ∨
        getTrimmedString (body.getField "product") = "" ∨
        getTrimmedString (body.getField "operatorName") = "" ∨
        getTrimmedString (body.getField "destination") = "" ∨
        getTrimmedString (body.getField "netWeight") = "") →
      handleSave body date time io sheet =
        { status := 400, succeeded := false, sheet := sheet }) ∧
    (getOrCreateWorksheet .absent = [HEADERS.map Json.str] ∧
      getOrCreateWorksheet .blank = [HEADERS.map Json.str]) ∧
    (∀ rs, headersMatch HEADERS rs.head? = false →
      getOrCreateWorksheet (.rows rs) = stampHeaders rs) ∧
    (∀ rs, headersMatch HEADERS rs.head? = true →
      getOrCreateWorksheet (.rows rs) = rs) := by
  refine ⟨?_, ?_, ⟨rfl, rfl⟩, ?_, ?_⟩
  · intro body date time sheet h1 h2 h3 h4 h5
    simp [handleSave, validatePayload, h1, h2, h3, h4, h5]
  · intro body date time io sheet h
    have hmiss : ¬(validatePayload body).missing = [] := by
      simp only [validatePayload, List.append_eq_nil]
      rcases h with h | h | h | h | h <;> simp [h]
    simp [handleSave, hmiss]
  · intro rs h
    simp [getOrCreateWorksheet, h]
  · intro rs h
    simp [getOrCreateWorksheet, h]

/-- Witness for C7: a complete body appended to a brand-new workbook
creates the header row and one data row. -/
theorem save_endpoint_contract_witness :
    handleSave
        (Json.obj
          [("boxNumber", .str "B7"), ("product", .str "Nylon 6"),
           ("operatorName", .str "Jane Doe"),
           ("destination", .str "Extruder"), ("netWeight", .str "12.5")])
        "5/1/2024" "12:00 PM" true .absent =
      { status := 200, succeeded := true,
        sheet := .rows (getOrCreateWorksheet .absent ++
          [[.str "B7", .str "Nylon 6", .str "Jane Doe", .str "Extruder",
            .str "5/1/2024", .str "12:00 PM", .str "12.5"]]) } :=
  save_endpoint_contract.1
    (Json.obj
      [("boxNumber", .str "B7"), ("product", .str "Nylon 6"),
       ("operatorName", .str "Jane Doe"),
       ("destination", .str "Extruder"), ("netWeight", .str "12.5")])
    "5/1/2024" "12:00 PM" .absent (by decide) (by decide) (by decide)
    (by decide) (by decide)

/-- Scenario A input of the specification: a valid step-1 submission. -/
def goodStep1Input : Step1Input :=
  ⟨"box", "A1B2", "", "", "Resin-X", "12.5", "Jane Doe"⟩

/-- The state after submitting step 1 from a fresh visit: on the
destination page with the step-1 fields stored. -/
def wizAfterStep1 : WizState :=
  wizStep initWiz (.step1Submit goodStep1Input)

/-- The state after selecting the Extruder destination: on the summary
page with a complete record. -/
def wizAfterStep2 : WizState :=
  wizStep wizAfterStep1 (.step2Submit (some "Extruder"))

/-- The state right after clicking save: one request in flight, the
control disabled. -/
def wizInFlight : WizState :=
  wizStep wizAfterStep2 .saveClick

/-- The in-flight state is reachable from a fresh visit. -/
theorem wizInFlight_reachable : Reachable wizInFlight :=
  .step _ _ (.step _ _ (.step _ _ .init))

example : wizInFlight.outstanding = 1 := rfl
example : wizInFlight.disabled = true := rfl
example : wizInFlight.page = .summary := rfl
example : wizAfterStep1.page = .destination := rfl
example : wizAfterStep2.page = .summary := rfl

/-- C4: while a save request is in flight and through the post-success
window the submit control stays disabled and clicking it is a no-op
issuing no further network call; the control is re-enabled by a
non-navigation event only when the submission fails; and every
reachable state has at most one request outstanding. -/
theorem submit_reentrancy_guard :
    (∀ s : WizState, s.disabled = true → wizStep s .saveClick = s) ∧
    (∀ s : WizState, Reachable s → s.outstanding ≤ 1) ∧
    (∀ s : WizState, Reachable s → s.outstanding = 1 → s.disabled = true) ∧
    (∀ (s : WizState) (ts : String), s.outstanding = 1 →
      (wizStep s (.saveRespOk ts)).disabled = s.disabled) ∧
    (∀ (s : WizState) (e : WizEvent), Reachable s → s.outstanding = 1 →
      (∀ p, ¬e = .nav p) → (wizStep s e).disabled = false →
      e = .saveRespFail) ∧
    (∀ s : WizState, s.outstanding = 1 →
      (wizStep s .saveRespFail).disabled = false) := by
  refine ⟨?_, ?_, ?_, ?_, ?_, ?_⟩
  · intro s hd
    simp [wizStep, hd]
  · intro s hr
    exact (reachable_inv s hr).1
  · intro s hr ho
    exact ((reachable_inv s hr).2.1 ho).1
  · intro s ts ho
    simp [wizStep, ho]
  · intro s e hr ho hnav hd
    obtain ⟨h1, h2, h3, h4⟩ := reachable_inv s hr
    obtain ⟨hdis, htim, hpag⟩ := h2 ho
    cases e with
    | nav p => exact absurd rfl (hnav p)
    | chipClick t => simp_all [wizStep]
    | step1Submit i => simp_all [wizStep]
    | step2Submit sel => simp_all [wizStep]
    | saveClick => simp_all [wizStep]
    | saveRespOk ts => simp_all [wizStep]
    | saveRespFail => rfl
    | timerFire => simp_all [wizStep]
  · intro s ho
    simp [wizStep, ho]

/-- Witness for C4 at a concrete reachable in-flight state: the control
is disabled and a second click changes nothing. -/
theorem submit_reentrancy_guard_witness :
    wizInFlight.disabled = true ∧
      wizStep wizInFlight .saveClick = wizInFlight := by
  have hd :=
    submit_reentrancy_guard.2.2.1 wizInFlight wizInFlight_reachable rfl
  exact ⟨hd, submit_reentrancy_guard.1 wizInFlight hd⟩

/-- C5: a rejected or transport-failed submission leaves the wizard on
step 3 with the stored record unchanged: the failure alert is shown,
the submit control is re-enabled, no redirect timer is armed, the store
is not written, and the step-1 error text is untouched. -/
theorem submit_failure_keeps_state (s : WizState) (hr : Reachable s)
    (ho : s.outstanding = 1) :
    wizStep s .saveRespFail =
      { s with outstanding := 0, disabled := false,
               alerts := s.alerts ++ ["Save failed. Please try again."] } ∧
    (wizStep s .saveRespFail).page = .summary ∧
    (wizStep s .saveRespFail).cell = s.cell ∧
    (wizStep s .saveRespFail).timerSet = false ∧
    (wizStep s .saveRespFail).disabled = false ∧
    (wizStep s .saveRespFail).formError = s.formError := by
  obtain ⟨h1, h2, h3, h4⟩ := reachable_inv s hr
  obtain ⟨hdis, htim, hpag⟩ := h2 ho
  refine ⟨by simp [wizStep, ho], ?_, ?_, ?_, ?_, ?_⟩ <;>
    simp [wizStep, ho, hpag, htim]

/-- Witness for C5 at the concrete reachable in-flight state. -/
theorem submit_failure_keeps_state_witness :
    wizStep wizInFlight .saveRespFail =
      { wizInFlight with
          outstanding := 0
          disabled := false
          alerts := wizInFlight.alerts ++ ["Save failed. Please try again."] } :=
  (submit_failure_keeps_state wizInFlight wizInFlight_reachable rfl).1

/-- The state after a successful save response: confirmation shown,
savedAt stamped, redirect timer armed. -/
def wizAfterSave : WizState :=
  wizStep wizInFlight (.saveRespOk "2024-05-01T12:00:00.000Z")

/-- C6 (amended): the record is created empty on first visit to step 1;
it is mutated only by chip-type selection clicks (which persist the
chosen chip type immediately, before any validation), by each step's
successful validation, by the savedAt stamp on submission success, and
by the delayed clear; it is destroyed only by the timer armed after a
confirmed successful submission; on success savedAt is set and a
confirmation message is shown; and when the fixed 3000 ms timer fires
the store is cleared and the user lands on step 1 with an empty
record. -/
theorem record_lifecycle :
    (initWiz.cell = StorageCell.missing ∧
      getStoredData initWiz.cell = Json.obj []) ∧
    (∀ (s : WizState) (e : WizEvent), ¬(wizStep s e).cell = s.cell →
      (∃ t, e = .chipClick t) ∨
      (∃ i r, e = .step1Submit i ∧
        validateStep1 (getStoredData s.cell) i = .ok r) ∨
      (∃ v, e = .step2Submit (some v)) ∨
      (∃ ts, e = .saveRespOk ts) ∨ e = .timerFire) ∧
    (∀ (s : WizState) (e : WizEvent), Reachable s →
      (wizStep s e).cell = .missing → ¬s.cell = .missing →
      e = .timerFire ∧ s.timerSet = true ∧ s.succeededEver = true) ∧
    (∀ (s : WizState) (ts : String), s.outstanding = 1 →
      (getStoredData (wizStep s (.saveRespOk ts)).cell).getField "savedAt" =
        some (.str ts) ∧
      ¬(wizStep s (.saveRespOk ts)).saveMsg = "") ∧
    (∀ s : WizState, s.timerSet = true →
      (wizStep s .timerFire).cell = .missing ∧
      (wizStep s .timerFire).page = .form ∧
      getStoredData (wizStep s .timerFire).cell = Json.obj []) ∧
    REDIRECT_DELAY_MS = 3000 := by
  refine ⟨⟨rfl, rfl⟩, ?_, ?_, ?_, ?_, rfl⟩
  · intro s e hc
    cases e with
    | nav p => exact absurd rfl hc
    | chipClick t => exact Or.inl ⟨t, rfl⟩
    | step1Submit i =>
      refine Or.inr (Or.inl ⟨i, ?_⟩)
      by_cases hp : s.page = .form
      · cases hv : validateStep1 (getStoredData s.cell) i with
        | error f m => simp [wizStep, hp, hv] at hc
        | ok r => exact ⟨r, rfl, rfl⟩
      · simp [wizStep, hp] at hc
    | step2Submit sel =>
      cases sel with
      | none =>
        exfalso
        apply hc
        simp only [wizStep]
        split <;> rfl
      | some v => exact Or.inr (Or.inr (Or.inl ⟨v, rfl⟩))
    | saveClick =>
      exfalso
      apply hc
      simp only [wizStep]
      split <;> rfl
    | saveRespOk ts => exact Or.inr (Or.inr (Or.inr (Or.inl ⟨ts, rfl⟩)))
    | saveRespFail =>
      exfalso
      apply hc
      simp only [wizStep]
      split <;> rfl
    | timerFire => exact Or.inr (Or.inr (Or.inr (Or.inr rfl)))
  · intro s e hr hm hsm
    obtain ⟨h1, h2, h3, h4⟩ := reachable_inv s hr
    cases e with
    | nav p => simp [wizStep, navTo] at hm; exact absurd hm hsm
    | chipClick t =>
      simp only [wizStep] at hm
      split at hm
      · exact absurd hm (by simp [setStoredData])
      · exact absurd hm hsm
    | step1Submit i =>
      simp only [wizStep] at hm
      split at hm
      · split at hm
        · exact absurd hm hsm
        · exact absurd hm (by simp [navTo, setStoredData])
      · exact absurd hm hsm
    | step2Submit sel =>
      simp only [wizStep] at hm
      split at hm
      · split at hm
        · exact absurd hm hsm
        · exact absurd hm (by simp [navTo, setStoredData])
      · exact absurd hm hsm
    | saveClick =>
      simp only [wizStep] at hm
      split at hm
      · exact absurd hm hsm
      · exact absurd hm hsm
    | saveRespOk ts =>
      simp only [wizStep] at hm
      split at hm
      · exact absurd hm hsm
      · exact absurd hm (by simp [setStoredData])
    | saveRespFail =>
      simp only [wizStep] at hm
      split at hm
      · exact absurd hm hsm
      · exact absurd hm hsm
    | timerFire =>
      simp only [wizStep] at hm
      split at hm
      · rename_i ht
        exact ⟨rfl, ht, h4 ht⟩
      · exact absurd hm hsm
  · intro s ts ho
    constructor
    · simp [wizStep, ho, getStoredData, setStoredData, Json.setField,
        jsonFalsy, Json.getField, lookupLast_setKey]
    · simp only [wizStep, ho, one_ne_zero, if_false]
      intro hmsg
      have hd := congrArg String.data hmsg
      simp only [String.data_append] at hd
      exact List.noConfusion hd
  · intro s ht
    refine ⟨by simp [wizStep, ht, navTo, clearStoredData],
      by simp [wizStep, ht, navTo, resolveEntry],
      by simp [wizStep, ht, navTo, clearStoredData, getStoredData]⟩

/-- Counterexample for C6 as stated: a click on the chip-type button on
a fresh step-1 page writes the chosen chip type into the stored record
at once — a store mutation performed by no validation at all — so the
record is not mutated only by each step's successful validation. -/
theorem chip_click_mutates_counterexample :
    initWiz.cell = StorageCell.missing ∧
      (wizStep initWiz (.chipClick "box")).cell =
        StorageCell.value (Json.obj [("chipType", Json.str "box")]) :=
  ⟨rfl, rfl⟩

/-- Witness for C6 at the concrete post-success state: the armed timer
fires, the store is cleared and step 1 shows with an empty record. -/
theorem record_lifecycle_witness :
    (wizStep wizAfterSave .timerFire).cell = .missing ∧
      (wizStep wizAfterSave .timerFire).page = .form ∧
      getStoredData (wizStep wizAfterSave .timerFire).cell = Json.obj [] :=
  record_lifecycle.2.2.2.2.1 wizAfterSave rfl
